import Mathlib

/-!
Shallow embedding of the `winvec-rs` library: two time-windowed
collections, `WinVec<T>` (src/lib.rs) and `WinSet<T>` (src/winset.rs).

Monotonic instants and durations are modelled as `Nat`.  `Instant::elapsed`
is `now - t` with Nat subtraction, which saturates at zero for instants in
the future, matching the monotonic-clock primitive.  Mutation of `&mut self`
is modelled by explicit state passing: each operation takes the current
state (and the clock reading `now` where the code calls `Instant::now()`)
and returns the new state together with its result.
-/

namespace WinvecRs

/-- Elapsed monotonic time since instant `t` as observed at instant `now`;
Nat subtraction saturates at zero for future instants. -/
def elapsed (now t : Nat) : Nat := now - t

/-- `pub struct WinVec<T>(Vec<(Instant, T)>, Duration)` — field 0 is the
vector of timestamped entries, field 1 the window duration. -/
structure WinVec (T : Type) where
  entries : List (Nat × T)
  dur : Nat
  deriving Repr, DecidableEq

namespace WinVec

variable {T : Type}

/-- `WinVec::with_duration(dur)`: empty vector, stored duration. -/
def with_duration (dur : Nat) : WinVec T := ⟨[], dur⟩

/-- `WinVec::push(el)`: appends `(Instant::now(), el)` to the vector. -/
def push (w : WinVec T) (now : Nat) (el : T) : WinVec T :=
  ⟨w.entries ++ [(now, el)], w.dur⟩

/-- `WinVec::push_with_timestamp(el, instant)`: appends `(instant, el)`. -/
def push_with_timestamp (w : WinVec T) (el : T) (instant : Nat) : WinVec T :=
  ⟨w.entries ++ [(instant, el)], w.dur⟩

/-- `WinVec::purge`: retains exactly the entries with
`e.0.elapsed() < dur`, keeping their order (iterator `filter` + `collect`
preserves order). -/
def purge (w : WinVec T) (now : Nat) : WinVec T :=
  ⟨w.entries.filter (fun e => elapsed now e.1 < w.dur), w.dur⟩

/-- `WinVec::len`: purges, then returns the new length (result, new state). -/
def len (w : WinVec T) (now : Nat) : Nat × WinVec T :=
  let p := w.purge now
  (p.entries.length, p)

/-- `WinVec::iter`: purges, then yields a clone of each surviving value in
vector order (yielded values, new state). -/
def iter (w : WinVec T) (now : Nat) : List T × WinVec T :=
  let p := w.purge now
  (p.entries.map Prod.snd, p)

/-- `impl IntoIterator for WinVec<T>`: purges, then moves the surviving
values out in vector order, consuming the collection. -/
def into_iter (w : WinVec T) (now : Nat) : List T :=
  (w.purge now).entries.map Prod.snd

end WinVec

/-- `pub struct WinSet<T>(HashSet<(Instant, T)>, Duration)` — field 0 is the
hash set of timestamped entries (uniqueness over the whole pair), field 1
the window duration. -/
structure WinSet (T : Type) where
  entries : Finset (Nat × T)
  dur : Nat

namespace WinSet

variable {T : Type} [DecidableEq T]

/-- `WinSet::with_duration(dur)`: empty set, stored duration. -/
def with_duration (dur : Nat) : WinSet T := ⟨∅, dur⟩

/-- `WinSet::insert(el)`: inserts `(Instant::now(), el)` into the set. -/
def insert (s : WinSet T) (now : Nat) (el : T) : WinSet T :=
  ⟨Insert.insert (now, el) s.entries, s.dur⟩

/-- `WinSet::insert_with_timestamp(el, instant)`: inserts `(instant, el)`. -/
def insert_with_timestamp (s : WinSet T) (el : T) (instant : Nat) : WinSet T :=
  ⟨Insert.insert (instant, el) s.entries, s.dur⟩

/-- `WinSet::from_set(set, dur)`: captures one instant and wraps every
value of the given set with it. -/
def from_set (set : Finset T) (now dur : Nat) : WinSet T :=
  ⟨set.image (fun el => (now, el)), dur⟩

/-- `WinSet::duration`: pure accessor for the stored duration. -/
def duration (s : WinSet T) : Nat := s.dur

/-- `WinSet::purge`: retains exactly the entries with
`e.0.elapsed() < dur`. -/
def purge (s : WinSet T) (now : Nat) : WinSet T :=
  ⟨s.entries.filter (fun e => elapsed now e.1 < s.dur), s.dur⟩

/-- `WinSet::len`: purges, then returns the storage size (result, state). -/
def len (s : WinSet T) (now : Nat) : Nat × WinSet T :=
  let p := s.purge now
  (p.entries.card, p)

/-- `WinSet::iter`: purges, then yields a clone of each storage entry's
value, one per storage entry, in unspecified order (a multiset). -/
def iter (s : WinSet T) (now : Nat) : Multiset T × WinSet T :=
  let p := s.purge now
  (p.entries.val.map Prod.snd, p)

/-- `impl IntoIterator for WinSet<T>`: purges, then collects the surviving
values into a fresh `HashSet<T>`, collapsing duplicate values. -/
def into_iter (s : WinSet T) (now : Nat) : Finset T :=
  (s.purge now).entries.image Prod.snd

end WinSet

/-- Helper: membership in the purged vector unfolds to membership in the
original entries plus the window predicate. -/
theorem mem_purgeVec_entries {T : Type} (w : WinVec T) (now : Nat)
    (e : Nat × T) :
    e ∈ (w.purge now).entries ↔ e ∈ w.entries ∧ elapsed now e.1 < w.dur := by
  simp [WinVec.purge, List.mem_filter]

/-- Helper: membership in the purged set unfolds to membership in the
original entries plus the window predicate. -/
theorem mem_purgeSet_entries {T : Type} [DecidableEq T] (s : WinSet T)
    (now : Nat) (e : Nat × T) :
    e ∈ (s.purge now).entries ↔ e ∈ s.entries ∧ elapsed now e.1 < s.dur := by
  simp [WinSet.purge, Finset.mem_filter]

/-- C1: every observation (`len`, `iter`, the consuming `into_iter`)
reflects exactly the storage entries whose timestamp `t` satisfies
`now - t < window`: every yielded value comes from such an entry, every
such entry's value is yielded, and `len` counts exactly those entries. -/
theorem C1_observation_reflects_window (T : Type) [DecidableEq T]
    (w : WinVec T) (s : WinSet T) (now : Nat) :
    ((WinVec.len w now).1
        = w.entries.countP (fun e => elapsed now e.1 < w.dur)
      ∧ (∀ v : T, v ∈ (WinVec.iter w now).1
          ↔ ∃ t, (t, v) ∈ w.entries ∧ elapsed now t < w.dur)
      ∧ (∀ v : T, v ∈ WinVec.into_iter w now
          ↔ ∃ t, (t, v) ∈ w.entries ∧ elapsed now t < w.dur))
    ∧ ((WinSet.len s now).1
        = (s.entries.filter (fun e => elapsed now e.1 < s.dur)).card
      ∧ (∀ v : T, v ∈ (WinSet.iter s now).1
          ↔ ∃ t, (t, v) ∈ s.entries ∧ elapsed now t < s.dur)
      ∧ (∀ v : T, v ∈ WinSet.into_iter s now
          ↔ ∃ t, (t, v) ∈ s.entries ∧ elapsed now t < s.dur)) := by
  refine ⟨⟨?_, ?_, ?_⟩, ⟨rfl, ?_, ?_⟩⟩
  · simp [WinVec.len, WinVec.purge, List.countP_eq_length_filter]
  · intro v
    simp only [WinVec.iter, List.mem_map]
    constructor
    · rintro ⟨e, he, rfl⟩
      rcases (mem_purgeVec_entries w now e).mp he with ⟨hmem, hlt⟩
      exact ⟨e.1, hmem, hlt⟩
    · rintro ⟨t, hmem, hlt⟩
      exact ⟨(t, v), (mem_purgeVec_entries w now (t, v)).mpr ⟨hmem, hlt⟩,
        rfl⟩
  · intro v
    simp only [WinVec.into_iter, List.mem_map]
    constructor
    · rintro ⟨e, he, rfl⟩
      rcases (mem_purgeVec_entries w now e).mp he with ⟨hmem, hlt⟩
      exact ⟨e.1, hmem, hlt⟩
    · rintro ⟨t, hmem, hlt⟩
      exact ⟨(t, v), (mem_purgeVec_entries w now (t, v)).mpr ⟨hmem, hlt⟩,
        rfl⟩
  · intro v
    simp only [WinSet.iter, Multiset.mem_map]
    constructor
    · rintro ⟨e, he, rfl⟩
      rcases (mem_purgeSet_entries s now e).mp he with ⟨hmem, hlt⟩
      exact ⟨e.1, hmem, hlt⟩
    · rintro ⟨t, hmem, hlt⟩
      exact ⟨(t, v), (mem_purgeSet_entries s now (t, v)).mpr ⟨hmem, hlt⟩,
        rfl⟩
  · intro v
    simp only [WinSet.into_iter, Finset.mem_image]
    constructor
    · rintro ⟨e, he, rfl⟩
      rcases (mem_purgeSet_entries s now e).mp he with ⟨hmem, hlt⟩
      exact ⟨e.1, hmem, hlt⟩
    · rintro ⟨t, hmem, hlt⟩
      exact ⟨(t, v), (mem_purgeSet_entries s now (t, v)).mpr ⟨hmem, hlt⟩,
        rfl⟩

/-- C2: inserting the same value into the set at two distinct instants both
within the window gives `len = 2` and an `iter` yielding the value twice,
while the consuming `into_iter` collapses the duplicates and yields it
once. -/
theorem C2_set_duplicate_rule {T : Type} [DecidableEq T]
    (d now t1 t2 : Nat) (x : T) (s : WinSet T)
    (hs : s = ((WinSet.with_duration d).insert_with_timestamp x
      t1).insert_with_timestamp x t2)
    (hne : t1 ≠ t2) (h1 : elapsed now t1 < d) (h2 : elapsed now t2 < d) :
    (s.len now).1 = 2 ∧ (s.iter now).1 = x ::ₘ {x}
      ∧ s.into_iter now = {x} := by
  subst hs
  have hent : (((WinSet.with_duration d : WinSet T).insert_with_timestamp x
      t1).insert_with_timestamp x t2).entries = {(t2, x), (t1, x)} := by
    simp [WinSet.with_duration, WinSet.insert_with_timestamp]
  have hpur : ((((WinSet.with_duration d : WinSet T).insert_with_timestamp x
      t1).insert_with_timestamp x t2).purge now).entries
      = {(t2, x), (t1, x)} := by
    simp only [WinSet.with_duration, WinSet.insert_with_timestamp,
      WinSet.purge]
    rw [insert_emptyc_eq, Finset.filter_insert, if_pos h2,
      Finset.filter_singleton, if_pos h1]
  have hnotmem : ((t2, x) : Nat × T) ∉ ({(t1, x)} : Finset (Nat × T)) :=
    fun h => hne (congrArg Prod.fst (Finset.mem_singleton.mp h)).symm
  refine ⟨?_, ?_, ?_⟩
  · simp only [WinSet.len, hpur]
    rw [Finset.card_insert_of_not_mem hnotmem, Finset.card_singleton]
  · simp only [WinSet.iter, hpur]
    rw [Finset.insert_val_of_not_mem hnotmem]
    simp
  · simp only [WinSet.into_iter, hpur]
    simp

/-- C3: for the sequence, both `iter` and the consuming `into_iter` yield
survivors in insertion order: whenever entries `ea` and `eb` were pushed in
that order and both survive eviction, the value of `ea` is yielded before
the value of `eb`. -/
theorem C3_sequence_insertion_order {T : Type} (w : WinVec T) (now : Nat)
    (l1 l2 l3 : List (Nat × T)) (ea eb : Nat × T)
    (hw : w.entries = l1 ++ ea :: l2 ++ eb :: l3)
    (ha : elapsed now ea.1 < w.dur) (hb : elapsed now eb.1 < w.dur) :
    (∃ m1 m2 m3, (WinVec.iter w now).1 = m1 ++ ea.2 :: (m2 ++ eb.2 :: m3))
    ∧ WinVec.into_iter w now = (WinVec.iter w now).1 := by
  refine ⟨⟨(l1.filter (fun e => elapsed now e.1 < w.dur)).map Prod.snd,
    (l2.filter (fun e => elapsed now e.1 < w.dur)).map Prod.snd,
    (l3.filter (fun e => elapsed now e.1 < w.dur)).map Prod.snd, ?_⟩, rfl⟩
  simp [WinVec.iter, WinVec.purge, hw, List.filter_append, List.filter_cons,
    ha, hb]

/-- C4: with a zero window duration, every observation of either collection
is empty, whatever entries storage holds. -/
theorem C4_zero_window_empty {T : Type} [DecidableEq T]
    (w : WinVec T) (s : WinSet T) (now : Nat)
    (hw : w.dur = 0) (hs : s.dur = 0) :
    (w.len now).1 = 0 ∧ (w.iter now).1 = [] ∧ w.into_iter now = []
    ∧ (s.len now).1 = 0 ∧ (s.iter now).1 = 0 ∧ s.into_iter now = ∅ := by
  simp [WinVec.len, WinVec.iter, WinVec.into_iter, WinVec.purge, hw,
    WinSet.len, WinSet.iter, WinSet.into_iter, WinSet.purge, hs]

/-- C5: purge is idempotent: a second observation run right after a first,
with no intervening insert and with the clock not yet past any survivor's
deadline, keeps exactly the first observation's survivors. -/
theorem C5_purge_idempotent {T : Type} [DecidableEq T]
    (w : WinVec T) (s : WinSet T) (now now2 : Nat)
    (hw : ∀ e ∈ (w.purge now).entries, elapsed now2 e.1 < w.dur)
    (hs : ∀ e ∈ (s.purge now).entries, elapsed now2 e.1 < s.dur) :
    (w.purge now).purge now2 = w.purge now
    ∧ (s.purge now).purge now2 = s.purge now := by
  refine ⟨?_, ?_⟩
  · simp only [WinVec.purge]
    congr 1
    refine List.filter_eq_self.mpr ?_
    intro e he
    simpa using hw e he
  · simp only [WinSet.purge]
    congr 1
    exact Finset.filter_true_of_mem (fun e he => hs e he)

/-- C6: insertion never evicts: `push` and `push_with_timestamp` append
exactly one entry and keep every pre-existing entry in place, and the set's
`insert` / `insert_with_timestamp` add exactly the new `(timestamp, value)`
pair (at most one entry) while keeping every pre-existing entry — whatever
the ages of the existing entries. -/
theorem C6_insertion_never_evicts {T : Type} [DecidableEq T]
    (w : WinVec T) (s : WinSet T) (now t : Nat) (v : T) :
    (w.push now v).entries = w.entries ++ [(now, v)]
    ∧ (w.push_with_timestamp v t).entries = w.entries ++ [(t, v)]
    ∧ (s.insert now v).entries = Insert.insert (now, v) s.entries
    ∧ (s.insert_with_timestamp v t).entries
        = Insert.insert (t, v) s.entries
    ∧ (∀ e, e ∈ s.entries → e ∈ (s.insert_with_timestamp v t).entries)
    ∧ (∀ e, e ∈ s.entries → e ∈ (s.insert now v).entries)
    ∧ (s.insert_with_timestamp v t).entries.card ≤ s.entries.card + 1 := by
  refine ⟨rfl, rfl, rfl, rfl, ?_, ?_, ?_⟩
  · intro e he
    exact Finset.mem_insert_of_mem he
  · intro e he
    exact Finset.mem_insert_of_mem he
  · exact Finset.card_insert_le _ _

/-- C7: with a non-decreasing clock and no intervening insert, a later
observation's survivors form a subset of an earlier observation's
survivors, both when the second purge runs on the first purge's result and
when both purges run on the same state; an evicted entry never reappears. -/
theorem C7_later_survivors_subset {T : Type} [DecidableEq T]
    (w : WinVec T) (s : WinSet T) (now now2 : Nat) (h : now ≤ now2) :
    (∀ e, e ∈ ((w.purge now).purge now2).entries
      → e ∈ (w.purge now).entries)
    ∧ (∀ e, e ∈ (w.purge now2).entries → e ∈ (w.purge now).entries)
    ∧ (∀ e, e ∈ ((s.purge now).purge now2).entries
      → e ∈ (s.purge now).entries)
    ∧ (∀ e, e ∈ (s.purge now2).entries → e ∈ (s.purge now).entries) := by
  refine ⟨?_, ?_, ?_, ?_⟩
  · intro e he
    exact ((mem_purgeVec_entries _ now2 e).mp he).1
  · intro e he
    rcases (mem_purgeVec_entries w now2 e).mp he with ⟨hmem, hlt⟩
    exact (mem_purgeVec_entries w now e).mpr
      ⟨hmem, lt_of_le_of_lt (Nat.sub_le_sub_right h e.1) hlt⟩
  · intro e he
    exact ((mem_purgeSet_entries _ now2 e).mp he).1
  · intro e he
    rcases (mem_purgeSet_entries s now2 e).mp he with ⟨hmem, hlt⟩
    exact (mem_purgeSet_entries s now e).mpr
      ⟨hmem, lt_of_le_of_lt (Nat.sub_le_sub_right h e.1) hlt⟩

/-- C8: the window duration is fixed at construction and unchanged by every
operation, and the set's `duration` accessor is a pure function returning
the stored duration. -/
theorem C8_duration_immutable {T : Type} [DecidableEq T]
    (w : WinVec T) (s : WinSet T) (d now t : Nat) (v : T)
    (init : Finset T) :
    (WinVec.with_duration d : WinVec T).dur = d
    ∧ (w.push now v).dur = w.dur
    ∧ (w.push_with_timestamp v t).dur = w.dur
    ∧ (w.purge now).dur = w.dur
    ∧ ((w.len now).2).dur = w.dur
    ∧ ((w.iter now).2).dur = w.dur
    ∧ (WinSet.with_duration d : WinSet T).dur = d
    ∧ (WinSet.from_set init now d).dur = d
    ∧ (s.insert now v).dur = s.dur
    ∧ (s.insert_with_timestamp v t).dur = s.dur
    ∧ (s.purge now).dur = s.dur
    ∧ ((s.len now).2).dur = s.dur
    ∧ ((s.iter now).2).dur = s.dur
    ∧ WinSet.duration s = s.dur
    ∧ WinSet.duration (WinSet.with_duration d : WinSet T) = d
    ∧ WinSet.duration (s.insert now v) = WinSet.duration s :=
  ⟨rfl, rfl, rfl, rfl, rfl, rfl, rfl, rfl, rfl, rfl, rfl, rfl, rfl, rfl,
    rfl, rfl⟩

/-- C9: set storage uniqueness is over the `(timestamp, value)` pair:
re-inserting the same value with the same timestamp is idempotent and a
window-surviving double insert counts once in `len`, while the same value
under a different (surviving) timestamp is a distinct storage entry and
counts twice. -/
theorem C9_storage_uniqueness_pairwise {T : Type} [DecidableEq T]
    (s : WinSet T) (d now t t2 : Nat) (v : T)
    (hne : t ≠ t2) (h1 : elapsed now t < d) (h2 : elapsed now t2 < d) :
    (s.insert_with_timestamp v t).insert_with_timestamp v t
      = s.insert_with_timestamp v t
    ∧ (WinSet.len (((WinSet.with_duration d).insert_with_timestamp v
        t).insert_with_timestamp v t) now).1 = 1
    ∧ (WinSet.len (((WinSet.with_duration d).insert_with_timestamp v
        t).insert_with_timestamp v t2) now).1 = 2 := by
  refine ⟨?_, ?_, ?_⟩
  · simp only [WinSet.insert_with_timestamp]
    exact congrArg (fun es => WinSet.mk es s.dur) (Finset.insert_idem _ _)
  · simp only [WinSet.len, WinSet.purge, WinSet.insert_with_timestamp,
      WinSet.with_duration]
    rw [Finset.insert_idem, insert_emptyc_eq, Finset.filter_singleton,
      if_pos h1, Finset.card_singleton]
  · simp only [WinSet.len, WinSet.purge, WinSet.insert_with_timestamp,
      WinSet.with_duration]
    rw [insert_emptyc_eq, Finset.filter_insert, if_pos h2,
      Finset.filter_singleton, if_pos h1, Finset.card_insert_of_not_mem
      (fun h => hne (congrArg Prod.fst (Finset.mem_singleton.mp h)).symm),
      Finset.card_singleton]

/-- C10: with a strictly positive window, an entry whose caller-supplied
timestamp lies at or after the observation instant survives that
observation: elapsed time saturates at zero for future instants, and zero
is below any positive window. -/
theorem C10_future_timestamp_survives {T : Type} [DecidableEq T]
    (w : WinVec T) (s : WinSet T) (now t : Nat) (v : T)
    (hw : 0 < w.dur) (hs : 0 < s.dur) (h : now ≤ t) :
    (t, v) ∈ ((w.push_with_timestamp v t).purge now).entries
    ∧ (t, v) ∈ ((s.insert_with_timestamp v t).purge now).entries
    ∧ v ∈ ((w.push_with_timestamp v t).iter now).1
    ∧ v ∈ ((s.insert_with_timestamp v t).iter now).1 := by
  have hel : elapsed now t = 0 := Nat.sub_eq_zero_of_le h
  have hmemw : (t, v) ∈ ((w.push_with_timestamp v t).purge now).entries := by
    refine (mem_purgeVec_entries _ now (t, v)).mpr ⟨?_, ?_⟩
    · simp [WinVec.push_with_timestamp]
    · show elapsed now t < (w.push_with_timestamp v t).dur
      rw [hel]
      exact hw
  have hmems : (t, v)
      ∈ ((s.insert_with_timestamp v t).purge now).entries := by
    refine (mem_purgeSet_entries _ now (t, v)).mpr ⟨?_, ?_⟩
    · exact Finset.mem_insert_self _ _
    · show elapsed now t < (s.insert_with_timestamp v t).dur
      rw [hel]
      exact hs
  refine ⟨hmemw, hmems, ?_, ?_⟩
  · exact List.mem_map.mpr ⟨(t, v), hmemw, rfl⟩
  · exact Multiset.mem_map.mpr ⟨(t, v), hmems, rfl⟩

/-- Witness for C2 at window 100, inserts of value 7 at instants 10 and 40,
observation at instant 50. -/
theorem C2_set_duplicate_rule_witness :
    (10 : Nat) ≠ 40 ∧ elapsed 50 10 < 100 ∧ elapsed 50 40 < 100
    ∧ ((((((WinSet.with_duration 100 : WinSet Nat).insert_with_timestamp 7
          10).insert_with_timestamp 7 40).len 50).1 = 2)
      ∧ (((((WinSet.with_duration 100 : WinSet Nat).insert_with_timestamp 7
          10).insert_with_timestamp 7 40).iter 50).1 = 7 ::ₘ {7})
      ∧ ((((WinSet.with_duration 100 : WinSet Nat).insert_with_timestamp 7
          10).insert_with_timestamp 7 40).into_iter 50 = {7})) :=
  ⟨by decide, by decide, by decide,
    C2_set_duplicate_rule 100 50 10 40 7 _ rfl (by decide) (by decide)
      (by decide)⟩

/-- Witness for C3: entries pushed at instants 5 and 6, window 100,
observation at instant 10. -/
theorem C3_sequence_insertion_order_witness :
    elapsed 10 5 < 100 ∧ elapsed 10 6 < 100
    ∧ ((∃ m1 m2 m3,
          (WinVec.iter (WinVec.mk [(5, 1), (6, 2)] 100) 10).1
            = m1 ++ (1 : Nat) :: (m2 ++ 2 :: m3))
      ∧ WinVec.into_iter (WinVec.mk [(5, 1), (6, 2)] 100) 10
          = (WinVec.iter (WinVec.mk [(5, 1), (6, 2)] 100) 10).1) :=
  ⟨by decide, by decide,
    C3_sequence_insertion_order (WinVec.mk [(5, 1), (6, 2)] 100) 10
      [] [] [] (5, 1) (6, 2) rfl (by decide) (by decide)⟩

/-- Witness for C4: both collections built with window 0, holding one entry
of timestamp 0 and value 3, observed at instant 5. -/
theorem C4_zero_window_empty_witness :
    (WinVec.mk [((0 : Nat), (3 : Nat))] 0).dur = 0
    ∧ (WinSet.mk {((0 : Nat), (3 : Nat))} 0).dur = 0
    ∧ (((WinVec.mk [((0 : Nat), (3 : Nat))] 0).len 5).1 = 0
      ∧ ((WinVec.mk [((0 : Nat), (3 : Nat))] 0).iter 5).1 = []
      ∧ (WinVec.mk [((0 : Nat), (3 : Nat))] 0).into_iter 5 = []
      ∧ ((WinSet.mk {((0 : Nat), (3 : Nat))} 0).len 5).1 = 0
      ∧ ((WinSet.mk {((0 : Nat), (3 : Nat))} 0).iter 5).1 = 0
      ∧ (WinSet.mk {((0 : Nat), (3 : Nat))} 0).into_iter 5 = ∅) :=
  ⟨rfl, rfl,
    C4_zero_window_empty (WinVec.mk [((0 : Nat), (3 : Nat))] 0)
      (WinSet.mk {((0 : Nat), (3 : Nat))} 0) 5 rfl rfl⟩

/-- Witness for C5: one surviving entry of timestamp 0, window 10, purges
at instants 5 and then 6. -/
theorem C5_purge_idempotent_witness :
    (∀ e ∈ ((WinVec.mk [((0 : Nat), (1 : Nat))] 10).purge 5).entries,
      elapsed 6 e.1 < 10)
    ∧ (∀ e ∈ ((WinSet.mk {((0 : Nat), (1 : Nat))} 10).purge 5).entries,
      elapsed 6 e.1 < 10)
    ∧ (((WinVec.mk [((0 : Nat), (1 : Nat))] 10).purge 5).purge 6
        = (WinVec.mk [((0 : Nat), (1 : Nat))] 10).purge 5
      ∧ ((WinSet.mk {((0 : Nat), (1 : Nat))} 10).purge 5).purge 6
        = (WinSet.mk {((0 : Nat), (1 : Nat))} 10).purge 5) :=
  ⟨by decide, by decide,
    C5_purge_idempotent (WinVec.mk [((0 : Nat), (1 : Nat))] 10)
      (WinSet.mk {((0 : Nat), (1 : Nat))} 10) 5 6 (by decide) (by decide)⟩

/-- Witness for C7: one entry of timestamp 0, window 10, observations at
instants 5 and then 6. -/
theorem C7_later_survivors_subset_witness :
    (5 : Nat) ≤ 6
    ∧ ((∀ e, e ∈ (((WinVec.mk [((0 : Nat), (1 : Nat))] 10).purge 5).purge
          6).entries
        → e ∈ ((WinVec.mk [((0 : Nat), (1 : Nat))] 10).purge 5).entries)
      ∧ (∀ e, e ∈ ((WinVec.mk [((0 : Nat), (1 : Nat))] 10).purge 6).entries
        → e ∈ ((WinVec.mk [((0 : Nat), (1 : Nat))] 10).purge 5).entries)
      ∧ (∀ e, e ∈ (((WinSet.mk {((0 : Nat), (1 : Nat))} 10).purge 5).purge
          6).entries
        → e ∈ ((WinSet.mk {((0 : Nat), (1 : Nat))} 10).purge 5).entries)
      ∧ (∀ e, e ∈ ((WinSet.mk {((0 : Nat), (1 : Nat))} 10).purge 6).entries
        → e ∈ ((WinSet.mk {((0 : Nat), (1 : Nat))} 10).purge 5).entries)) :=
  ⟨by decide,
    C7_later_survivors_subset (WinVec.mk [((0 : Nat), (1 : Nat))] 10)
      (WinSet.mk {((0 : Nat), (1 : Nat))} 10) 5 6 (by decide)⟩

/-- Witness for C9 at window 100, value 7, timestamps 10 and 40,
observation at instant 50, starting set empty with window 100. -/
theorem C9_storage_uniqueness_pairwise_witness :
    (10 : Nat) ≠ 40 ∧ elapsed 50 10 < 100 ∧ elapsed 50 40 < 100
    ∧ (((WinSet.with_duration 100 : WinSet Nat).insert_with_timestamp 7
          10).insert_with_timestamp 7 10
        = (WinSet.with_duration 100 : WinSet Nat).insert_with_timestamp 7 10
      ∧ (WinSet.len (((WinSet.with_duration 100).insert_with_timestamp 7
          10).insert_with_timestamp 7 10) 50).1 = 1
      ∧ (WinSet.len (((WinSet.with_duration 100).insert_with_timestamp 7
          10).insert_with_timestamp 7 40) 50).1 = 2) :=
  ⟨by decide, by decide, by decide,
    C9_storage_uniqueness_pairwise (WinSet.with_duration 100) 100 50 10 40 7
      (by decide) (by decide) (by decide)⟩

/-- Witness for C10: empty collections of window 10, entry with future
timestamp 8 observed at instant 5. -/
theorem C10_future_timestamp_survives_witness :
    0 < (10 : Nat) ∧ 0 < (10 : Nat) ∧ (5 : Nat) ≤ 8
    ∧ ((8, 2) ∈ (((WinVec.mk ([] : List (Nat × Nat))
          10).push_with_timestamp 2 8).purge 5).entries
      ∧ (8, 2) ∈ (((WinSet.mk (∅ : Finset (Nat × Nat))
          10).insert_with_timestamp 2 8).purge 5).entries
      ∧ (2 : Nat) ∈ (((WinVec.mk ([] : List (Nat × Nat))
          10).push_with_timestamp 2 8).iter 5).1
      ∧ (2 : Nat) ∈ (((WinSet.mk (∅ : Finset (Nat × Nat))
          10).insert_with_timestamp 2 8).iter 5).1) :=
  ⟨by decide, by decide, by decide,
    C10_future_timestamp_survives (WinVec.mk ([] : List (Nat × Nat)) 10)
      (WinSet.mk (∅ : Finset (Nat × Nat)) 10) 5 8 2 (by decide) (by decide)
      (by decide)⟩

end WinvecRs
